import Mathlib

/-!
Verification development for the PSyclone core snapshot: a shallow
embedding (in Lean 4) of the dependency-analysis tools, the symbolic
equivalence engine, symbol resolution, two transformations and the SIR
backend emission, together with theorems checking the natural-language
specification against this embedding.

Each definition is translated from the Python source file named in its
doc comment.  Parts of the repository that the claims depend on but that
are not present under `src/` (e.g. `reference_accesses`,
`SymbolicMaths.equal`, `SymbolTable.lookup`) are modelled from the
specification and are marked `Modelled from the spec:`.
-/

namespace PSyclone

/-- Index / bound expressions appearing in the PSyIR.  `member b n`
models a structure access `b%n` (e.g. `a%b`).  Translated from the PSyIR
expression nodes used by `dependency_tools.py` and
`symbolic_maths.py`. -/
inductive SExpr where
  | var : String → SExpr
  | lit : Int → SExpr
  | add : SExpr → SExpr → SExpr
  | sub : SExpr → SExpr → SExpr
  | mul : SExpr → SExpr → SExpr
  | member : SExpr → String → SExpr
deriving DecidableEq, Repr

/-- The variables referenced inside an expression.  This models
`index_expression.reference_accesses(accesses)` followed by the
membership test `Signature(loop_variable) in accesses`
(dependency_tools.py lines 192-195): the set of signatures referenced by
an index expression. -/
def SExpr.varsOf : SExpr → List String
  | .var n => [n]
  | .lit _ => []
  | .add a b => a.varsOf ++ b.varsOf
  | .sub a b => a.varsOf ++ b.varsOf
  | .mul a b => a.varsOf ++ b.varsOf
  | .member b _ => b.varsOf

/-- A message on the `DependencyTools` message channel.  The source
(`_add_info` / `_add_warning` / `_add_error`, dependency_tools.py lines
78-100) stores the strings `"Info: "+message`, `"Warning: "+message`,
`"Error: "+message`; here the severity tag is kept as a constructor and
`Msg.render` recovers the stored string. -/
inductive Msg where
  | info : String → Msg
  | warning : String → Msg
  | error : String → Msg
deriving DecidableEq, Repr

/-- The string stored by the message-handling system for a message. -/
def Msg.render : Msg → String
  | .info s => "Info: " ++ s
  | .warning s => "Warning: " ++ s
  | .error s => "Error: " ++ s

/-- Whether a message is on the warning channel. -/
def Msg.isWarning : Msg → Bool
  | .warning _ => true
  | _ => false

/-- Access kinds, from `psyclone.core.AccessType` (used by
dependency_tools.py). -/
inductive AccessType where
  | READ | WRITE | READWRITE | UNKNOWN
deriving DecidableEq, Repr

/-- One recorded access of a variable: its kind and, for array accesses,
the per-component lists of index expressions (`access.indices`, e.g. for
`a(i,j)%b(k)` the list `[[i, j], [k]]`). -/
structure AccessInfo where
  access_type : AccessType
  indices : List (List SExpr)
deriving DecidableEq, Repr

/-- The ordered (execution-order) access records of one variable,
modelling `SingleVariableAccessInfo` (`var_info` in
dependency_tools.py). -/
structure SingleVariableAccessInfo where
  var_name : String
  all_accesses : List AccessInfo
deriving DecidableEq, Repr

/-- Modelled from the spec: `is_read_only(sig)` of the access-information
class is not under `src/`; the spec (§4.3) defines it as "true iff no
access has kind write or read-write". -/
def SingleVariableAccessInfo.is_read_only (vi : SingleVariableAccessInfo) : Bool :=
  vi.all_accesses.all
    (fun a => a.access_type ≠ AccessType.WRITE ∧ a.access_type ≠ AccessType.READWRITE)

/-- Modelled from the spec: the access-information `is_array()` query is
not under `src/`; per the data model (§3) an access carries array-index
expressions exactly when it is an array access, so a variable is used as
an array when some recorded access carries index expressions. -/
def SingleVariableAccessInfo.is_array (vi : SingleVariableAccessInfo) : Bool :=
  vi.all_accesses.any (fun a => ¬ a.indices.isEmpty)

/-- The flattened, order-preserving sequence of
`((component_index, dimension_index), index_expression)` triples of all
accesses of a variable, restricted to index expressions that reference
`loop_variable`.  This mirrors the three nested loops of
`is_array_parallelisable` (dependency_tools.py lines 175-212): the outer
loop over `var_info.all_accesses`, the middle `enumerate` over
components, the inner `enumerate` over the dimensions of one component,
with the `continue` skipping expressions not using the loop variable. -/
def depIndices (loop_variable : String) (vi : SingleVariableAccessInfo) :
    List ((Nat × Nat) × SExpr) :=
  vi.all_accesses.flatMap (fun acc =>
    acc.indices.enum.flatMap (fun ci =>
      ci.2.enum.filterMap (fun di =>
        if loop_variable ∈ di.2.varsOf then some ((ci.1, di.1), di.2) else none)))

/-- The sequential scan of `is_array_parallelisable` over the
loop-variable-dependent index expressions: walks the triples in order,
carrying the previously identified `found_dimension_index` (the source's
`(-1, -1)` sentinel is `none` here, `found_dimension_index[0] > -1`
is `found ≠ none`); on the first index-location mismatch it stops and
reports the warning (the early `return False` of lines 201-210),
otherwise it returns the collected `all_indices` list. -/
def scanIndices (var_name loop_variable : String) :
    List ((Nat × Nat) × SExpr) → Option (Nat × Nat) → List SExpr →
    Option (List SExpr) × List Msg
  | [], _, all => (some all, [])
  | (p, e) :: rest, found, all =>
    match found with
    | some q =>
      if q ≠ p then
        (none, [Msg.warning ("Variable " ++ var_name ++ " is using loop variable "
                ++ loop_variable ++ " in two index locations.")])
      else scanIndices var_name loop_variable rest (some p) (all ++ [e])
    | none => scanIndices var_name loop_variable rest (some p) (all ++ [e])

/-- Characterisation of the scan above: the consecutive-position check
performed by `scanIndices` (each newly found index location is compared
with the previously recorded one). -/
def posChainOK : Option (Nat × Nat) → List ((Nat × Nat) × SExpr) → Bool
  | _, [] => true
  | none, (p, _) :: rest => posChainOK (some p) rest
  | some q, (p, _) :: rest => decide (q = p) && posChainOK (some p) rest

/-- `DependencyTools.is_array_parallelisable` (dependency_tools.py lines
143-256), returning the boolean result together with the messages added
to the message channel.  `mathEq` stands for the PSyIR
`Node.math_equal` used at line 247 (that method is not under `src/`);
the behaviour of this function is stated generically in it. -/
def is_array_parallelisable (mathEq : SExpr → SExpr → Bool)
    (loop_variable : String) (vi : SingleVariableAccessInfo) :
    Bool × List Msg :=
  if vi.is_read_only then (true, [])
  else
    match scanIndices vi.var_name loop_variable (depIndices loop_variable vi) none [] with
    | (none, msgs) => (false, msgs)
    | (some [], _) =>
      (false, [Msg.warning ("Variable " ++ vi.var_name ++ " is written to, and does not "
               ++ "depend on the loop variable " ++ loop_variable ++ ".")])
    | (some (first_index :: rest), _) =>
      match rest.find? (fun index => ¬ mathEq first_index index) with
      | some _ =>
        (false, [Msg.warning ("Variable " ++ vi.var_name ++ " is written and is accessed "
                 ++ "using different indices and can therefore not be parallelised.")])
      | none => (true, [])

/-- `DependencyTools.is_scalar_parallelisable` (dependency_tools.py
lines 259-296), returning the boolean result together with the messages
added to the message channel. -/
def is_scalar_parallelisable (vi : SingleVariableAccessInfo) : Bool × List Msg :=
  if vi.is_read_only then (true, [])
  else
    match vi.all_accesses with
    | [_] =>
      (false, [Msg.warning ("Scalar variable " ++ vi.var_name ++ " is only written once.")])
    | first :: _ =>
      if first.access_type = AccessType.WRITE then (true, [])
      else
        (false, [Msg.warning ("Variable " ++ vi.var_name ++ " is read first, which "
                 ++ "indicates a reduction.")])
    | [] =>
      (false, [Msg.warning ("Variable " ++ vi.var_name ++ " is read first, which "
               ++ "indicates a reduction.")])

/-- A leaf reference as seen by the access analysis: the referenced
signature and, for array references, the per-component index-expression
lists (empty for scalar references). -/
structure RefAccess where
  name : String
  indices : List (List SExpr)
deriving DecidableEq, Repr

/-- PSyIR nodes as needed by the dependency tools: assignments and
loops.  An assignment carries its left-hand-side reference and the
ordered list of references read by its right-hand side; a loop carries
its induction variable, its loop-type tag, the references read by its
start/stop/step expressions, and its body. -/
inductive PNode where
  | assign (lhs : RefAccess) (reads : List RefAccess)
  | loop (variable_name : String) (loop_type : String) (reads : List RefAccess)
         (body : List PNode)
deriving Repr

/-- `node.walk(Loop)`: the depth-first list of loop nodes in a subtree,
including the node itself when it is a loop (used at
dependency_tools.py lines 131 and 423). -/
def PNode.walkLoops : PNode → List PNode
  | .assign _ _ => []
  | .loop v t reads body =>
    .loop v t reads body :: walkLoopsList body
where
  /-- depth-first walk over a list of sibling nodes. -/
  walkLoopsList : List PNode → List PNode
  | [] => []
  | n :: rest => n.walkLoops ++ walkLoopsList rest

/-- The loop-type tag of a node (only meaningful for loop nodes,
which is the only way the source uses it). -/
def PNode.loopType : PNode → String
  | .assign _ _ => ""
  | .loop _ t _ _ => t

/-- The induction-variable name of a node (only meaningful for loop
nodes, which is the only way the source uses it). -/
def PNode.loopVar : PNode → String
  | .assign _ _ => ""
  | .loop v _ _ _ => v

/-- The ordered access events contributed by reading one reference:
reads of the variables inside its index expressions, then the read of
the referenced signature itself. -/
def refReadEvents (r : RefAccess) : List (String × AccessInfo) :=
  (r.indices.flatMap (fun comp => comp.flatMap SExpr.varsOf)).map
      (fun n => (n, ⟨AccessType.READ, []⟩))
    ++ [(r.name, ⟨AccessType.READ, r.indices⟩)]

/-- Modelled from the spec: `Node.reference_accesses` is not under
`src/`.  Per §4.3 the analysis walks the subtree depth-first in
execution order, recording a write for the left side of an assignment
and a read for every other leaf reference; a loop writes its induction
variable before the body reads it (the source comment at
dependency_tools.py lines 487-489 relies on exactly this ordering). -/
def PNode.accessEvents : PNode → List (String × AccessInfo)
  | .assign lhs reads =>
    reads.flatMap refReadEvents
      ++ (lhs.indices.flatMap (fun comp => comp.flatMap SExpr.varsOf)).map
          (fun n => (n, ⟨AccessType.READ, []⟩))
      ++ [(lhs.name, ⟨AccessType.WRITE, lhs.indices⟩)]
  | .loop v _ reads body =>
    (v, ⟨AccessType.WRITE, []⟩) :: reads.flatMap refReadEvents
      ++ accessEventsList body
where
  /-- events of a list of sibling nodes, in order. -/
  accessEventsList : List PNode → List (String × AccessInfo)
  | [] => []
  | n :: rest => n.accessEvents ++ accessEventsList rest

/-- Appending one access to the per-signature records, keeping the
first-appearance order of signatures (`VariablesAccessInfo.add_access`,
modelled from the spec, §4.3: accesses to an identical path are
coalesced into one signature's ordered access list). -/
def addAccess (vai : List SingleVariableAccessInfo) (name : String)
    (acc : AccessInfo) : List SingleVariableAccessInfo :=
  match vai with
  | [] => [⟨name, [acc]⟩]
  | vi :: rest =>
    if vi.var_name = name then ⟨vi.var_name, vi.all_accesses ++ [acc]⟩ :: rest
    else vi :: addAccess rest name acc

/-- Modelled from the spec: `VariablesAccessInfo(node_list)` — the
mapping from signature to ordered accesses obtained by folding the
execution-order access events of the nodes. -/
def referenceAccesses (node_list : List PNode) : List SingleVariableAccessInfo :=
  (PNode.accessEvents.accessEventsList node_list).foldl
    (fun acc ev => addAccess acc ev.1 ev.2) []

/-- Modelled from the spec: the `is_written(signature)` query used by
`get_output_parameters` (dependency_tools.py line 520) is not under
`src/`; per §4.3 a variable is an output iff any access is a write. -/
def SingleVariableAccessInfo.is_written (vi : SingleVariableAccessInfo) : Bool :=
  vi.all_accesses.any (fun a =>
    a.access_type = AccessType.WRITE ∨ a.access_type = AccessType.READWRITE)

/-- `DependencyTools.get_input_parameters` (dependency_tools.py lines
465-496): the signatures whose first access is not a write, in
signature order; the optional `variables_info` avoids recomputing the
variable usage. -/
def get_input_parameters (node_list : List PNode)
    (variables_info : Option (List SingleVariableAccessInfo) := none) :
    List String :=
  let vinfo := variables_info.getD (referenceAccesses node_list)
  (vinfo.filter (fun vi =>
    match vi.all_accesses with
    | [] => false
    | first_access :: _ => first_access.access_type ≠ AccessType.WRITE)).map
    (fun vi => vi.var_name)

/-- `DependencyTools.get_output_parameters` (dependency_tools.py lines
499-520): the signatures with a write access, in signature order. -/
def get_output_parameters (node_list : List PNode)
    (variables_info : Option (List SingleVariableAccessInfo) := none) :
    List String :=
  let vinfo := variables_info.getD (referenceAccesses node_list)
  (vinfo.filter (fun vi => vi.is_written)).map (fun vi => vi.var_name)

/-- `DependencyTools.get_in_out_parameters` (dependency_tools.py lines
523-539): computes the variable usage once and hands it to both
`get_input_parameters` and `get_output_parameters`. -/
def get_in_out_parameters (node_list : List PNode) : List String × List String :=
  let variables_info := referenceAccesses node_list
  (get_input_parameters node_list (some variables_info),
   get_output_parameters node_list (some variables_info))

/-- The `DependencyTools` construction state: the loop types that will
be considered for parallelisation (dependency_tools.py lines 65-70). -/
structure DependencyTools where
  loop_types_to_parallelise : List String
deriving DecidableEq, Repr

/-- `DependencyTools._is_loop_suitable_for_parallel`
(dependency_tools.py lines 113-140), with the messages it adds. -/
def is_loop_suitable_for_parallel (dt : DependencyTools) (loop : PNode)
    (only_nested_loops : Bool) : Bool × List Msg :=
  if only_nested_loops ∧ loop.walkLoops.length = 1 then
    (false, [Msg.info "Not a nested loop."])
  else if loop.loopType ∉ dt.loop_types_to_parallelise then
    (false, [Msg.info ("Loop has wrong loop type " ++ loop.loopType ++ ".")])
  else (true, [])

/-- `DependencyTools.is_variable_array` (dependency_tools.py lines
299-359) in the form it is called from `can_loop_be_parallelised`
(line 443: no `loop_variable`): an access with indices means an array;
otherwise fall back to the symbol table (`symbol_is_array` models
`symbol_table.lookup(var_name).is_array`, which is not under `src/`). -/
def is_variable_array (var_name : String)
    (access_information : SingleVariableAccessInfo)
    (symbol_is_array : String → Bool) : Bool :=
  if access_information.is_array then true
  else symbol_is_array var_name

/-- The per-variable loop of `can_loop_be_parallelised`
(dependency_tools.py lines 425-462): walk the signatures in order,
skipping loop variables and ignored signatures, dispatching to the
array or scalar check, stopping at the first blocking variable unless
`test_all_variables` is set. -/
def checkVars (mathEq : SExpr → SExpr → Bool) (loop_variable : String)
    (loop_vars signatures_to_ignore : List String)
    (symbol_is_array : String → Bool) (test_all_variables : Bool) :
    List SingleVariableAccessInfo → Bool → List Msg → Bool × List Msg
  | [], result, msgs => (result, msgs)
  | vi :: rest, result, msgs =>
    if vi.var_name ∈ loop_vars then
      checkVars mathEq loop_variable loop_vars signatures_to_ignore
        symbol_is_array test_all_variables rest result msgs
    else if vi.var_name ∈ signatures_to_ignore then
      checkVars mathEq loop_variable loop_vars signatures_to_ignore
        symbol_is_array test_all_variables rest result msgs
    else
      let res :=
        if is_variable_array vi.var_name vi symbol_is_array then
          is_array_parallelisable mathEq loop_variable vi
        else
          is_scalar_parallelisable vi
      if res.1 = false then
        if test_all_variables = false then (false, msgs ++ res.2)
        else
          checkVars mathEq loop_variable loop_vars signatures_to_ignore
            symbol_is_array test_all_variables rest false (msgs ++ res.2)
      else
        checkVars mathEq loop_variable loop_vars signatures_to_ignore
          symbol_is_array test_all_variables rest result (msgs ++ res.2)

/-- `DependencyTools.can_loop_be_parallelised` (dependency_tools.py
lines 362-462).  The message list is cleared on entry; a non-loop node
gives the `TypeError` (as `Except.error`); then the loop-suitability
pre-filter runs, then the per-variable checks.  `mathEq` models the
PSyIR `math_equal` and `symbol_is_array` the symbol-table lookup, both
outside `src/`. -/
def can_loop_be_parallelised (dt : DependencyTools)
    (mathEq : SExpr → SExpr → Bool) (symbol_is_array : String → Bool)
    (loop : PNode) (loop_variable : Option String := none)
    (only_nested_loops : Bool := true) (test_all_variables : Bool := false)
    (signatures_to_ignore : List String := [])
    (var_accesses : Option (List SingleVariableAccessInfo) := none) :
    Except String (Bool × List Msg) :=
  match loop with
  | .assign _ _ =>
    .error "can_loop_be_parallelised: node must be an instance of class Loop"
  | .loop v t reads body =>
    let theLoop := PNode.loop v t reads body
    let lv := loop_variable.getD v
    let suit := is_loop_suitable_for_parallel dt theLoop only_nested_loops
    if suit.1 = false then .ok (false, suit.2)
    else
      let va := var_accesses.getD (referenceAccesses [theLoop])
      let loop_vars := theLoop.walkLoops.map PNode.loopVar
      .ok (checkVars mathEq lv loop_vars signatures_to_ignore symbol_is_array
            test_all_variables va true [])

/-- Structural expression equality, a concrete equivalence usable for
the `math_equal` parameter. -/
def structuralEq : SExpr → SExpr → Bool := fun a b => decide (a = b)

/-- A `DependencyTools` instance constructed with the allow-list
`{"lat"}`. -/
def dtLat : DependencyTools := ⟨["lat"]⟩

/-- The scenario of the end-to-end claim, as written: an innermost loop
tagged `lat` (over `ji`), sitting inside a `lon` loop, whose only array
access is the read of `a(ji)`. -/
def exInner : PNode :=
  .loop "ji" "lat" [] [.assign ⟨"x", []⟩ [⟨"a", [[SExpr.var "ji"]]⟩]]

/-- The surrounding `lon` loop of the scenario (the analysed `lat` loop
is its only child). -/
def exOuterLon : PNode := .loop "jj" "lon" [] [exInner]

/-- A `lat` loop (over `jj`) containing a nested `lon` loop (over `ji`)
whose body only reads the arrays `a` and `b`
(`x = a(ji,jj); x = x + b(ji,jj)`). -/
def exLatNest : PNode :=
  .loop "jj" "lat" []
    [.loop "ji" "lon" []
      [.assign ⟨"x", []⟩ [⟨"a", [[SExpr.var "ji"], [SExpr.var "jj"]]⟩],
       .assign ⟨"x", []⟩ [⟨"x", []⟩, ⟨"b", [[SExpr.var "ji"], [SExpr.var "jj"]]⟩]]]

/-- The same nest after one access becomes a write whose index omits
the loop variable (`x = a(ji,jj); b(1) = x`). -/
def exLatNestW : PNode :=
  .loop "jj" "lat" []
    [.loop "ji" "lon" []
      [.assign ⟨"x", []⟩ [⟨"a", [[SExpr.var "ji"], [SExpr.var "jj"]]⟩],
       .assign ⟨"b", [[SExpr.lit 1]]⟩ [⟨"x", []⟩]]]

/-- The synthetic block `x = 1` then `y = x + z` of the
input/output-partition claim. -/
def exBlock : List PNode :=
  [.assign ⟨"x", []⟩ [], .assign ⟨"y", []⟩ [⟨"x", []⟩, ⟨"z", []⟩]]

/-- The two strategies of the symbolic-maths engine
(symbolic_maths.py: `SymbolicMathsSympy`, `SymbolicMathsSimple`). -/
inductive SymbolicMathsStrategy where
  | sympy
  | simple
deriving DecidableEq, Repr

/-- `SymbolicMaths.get` (symbolic_maths.py lines 3-15): the strategy is
a lazily initialized singleton — when no instance is stored yet, the
exact strategy is chosen if the algebra engine imports, the fallback
otherwise; afterwards the stored instance is returned unchanged.  The
mutable class attribute `_instance` is threaded explicitly: the result
is the returned strategy together with the new `_instance` state. -/
def SymbolicMaths.get (instanceState : Option SymbolicMathsStrategy)
    (sympy_importable : Bool) :
    SymbolicMathsStrategy × Option SymbolicMathsStrategy :=
  match instanceState with
  | some s => (s, some s)
  | none =>
    let s := if sympy_importable then SymbolicMathsStrategy.sympy
             else SymbolicMathsStrategy.simple
    (s, some s)

/-- `SymbolicMathsSimple.greater_than` (symbolic_maths.py lines 55-56):
the fallback strategy answers `True` for every pair of expressions. -/
def SymbolicMathsSimple.greater_than (_exp1 _exp2 : SExpr) : Bool := true

/-- `SymbolicMathsSimple.greater_equal` (symbolic_maths.py lines
58-59): the fallback strategy answers `True` for every pair of
expressions. -/
def SymbolicMathsSimple.greater_equal (_exp1 _exp2 : SExpr) : Bool := true

/-- A normalized linear combination: association list from atom name to
nonzero coefficient, sorted by atom name. -/
def LinComb := List (String × Int)
deriving instance DecidableEq, Repr for LinComb

/-- Strict lexicographic order on character lists (an executable
rendering of the textual order used to keep normal forms canonical). -/
def charListLt : List Char → List Char → Bool
  | [], [] => false
  | [], _ :: _ => true
  | _ :: _, [] => false
  | a :: as, b :: bs =>
    if a < b then true else if b < a then false else charListLt as bs

/-- Strict textual order on strings. -/
def strLtB (a b : String) : Bool := charListLt a.data b.data

/-- Insert one term into a sorted linear combination, merging
coefficients and dropping cancelled terms. -/
def insertTerm (k : String) (c : Int) : LinComb → LinComb
  | [] => if c = 0 then [] else [(k, c)]
  | (k2, c2) :: rest =>
    if k = k2 then (if c + c2 = 0 then rest else (k2, c + c2) :: rest)
    else if strLtB k k2 then
      (if c = 0 then (k2, c2) :: rest else (k, c) :: (k2, c2) :: rest)
    else (k2, c2) :: insertTerm k c rest

/-- Sum of two linear combinations. -/
def addInto (acc l : LinComb) : LinComb :=
  l.foldl (fun acc2 kv => insertTerm kv.1 kv.2 acc2) acc

/-- Scale a linear combination by an integer. -/
def scaleLC (c : Int) (l : LinComb) : LinComb :=
  if c = 0 then [] else l.map (fun kv => (kv.1, c * kv.2))

/-- Canonical textual form of a normalized expression (constant plus
linear combination), used to atomize non-linear subterms and structure
accesses. -/
def canonOf (p : Int × LinComb) : String :=
  toString p.1 ++ String.join (p.2.map (fun kv =>
    "+" ++ toString kv.2 ++ "*" ++ kv.1))

/-- Modelled from the spec: the exact-strategy normalization behind
`SymbolicMaths.equal`, which is exercised by the repository's tests but
absent from `src/` (symbolic_maths.py there only carries `get`,
`greater_than` and `greater_equal`).  Per §4.4 the engine parses the
expression into a symbolic-algebra form handling commutativity and
associativity of `+` and `*`, integer-literal arithmetic, and
multi-component structure-access paths compared component-wise; here an
expression is normalized to a constant plus a sorted linear combination
over atoms, where a non-linear product or a structure access becomes a
single atom named by its canonical text. -/
def norm : SExpr → Int × LinComb
  | .var n => (0, [(n, 1)])
  | .lit v => (v, [])
  | .add a b =>
    let na := norm a
    let nb := norm b
    (na.1 + nb.1, addInto na.2 nb.2)
  | .sub a b =>
    let na := norm a
    let nb := norm b
    (na.1 - nb.1, addInto na.2 (scaleLC (-1) nb.2))
  | .mul a b =>
    let na := norm a
    let nb := norm b
    if na.2 = [] then (na.1 * nb.1, scaleLC na.1 nb.2)
    else if nb.2 = [] then (na.1 * nb.1, scaleLC nb.1 na.2)
    else
      let sa := canonOf na
      let sb := canonOf nb
      (0, [(if strLtB sb sa then "(" ++ sb ++ "*" ++ sa ++ ")"
            else "(" ++ sa ++ "*" ++ sb ++ ")", 1)])
  | .member b n => (0, [(canonOf (norm b) ++ "%" ++ n, 1)])

/-- Modelled from the spec: `equal(expr1, expr2) -> bool` of the
symbolic-equivalence engine (§4.4) — two expressions are equal when the
simplification of their difference is zero, i.e. when their canonical
normal forms coincide. -/
def SymbolicMaths.equal (expr1 expr2 : SExpr) : Bool :=
  decide (norm expr1 = norm expr2)

/-- Symbol visibility (symbol.py lines 205-220). -/
inductive Visibility where
  | PUBLIC
  | PRIVATE
deriving DecidableEq, Repr

/-- The access modes of an argument-interfaced symbol
(`ArgumentInterface.Access`, symbol.py lines 129-145). -/
inductive ArgumentAccess where
  | READ | WRITE | READWRITE | UNKNOWN
deriving DecidableEq, Repr

/-- Symbol interfaces (symbol.py lines 64-181): local, unresolved,
global (import from a named container) or routine argument. -/
inductive SymInterface where
  | localI
  | unresolvedI
  | globalI (container_symbol : String)
  | argumentI (access : ArgumentAccess)
deriving DecidableEq, Repr

/-- A symbol (symbol.py `Symbol` and its subclasses): name, visibility
and interface, plus the information carried by the concrete subclass —
its Python class (`type(self)`) and its type information. -/
structure PSymbol where
  name : String
  visibility : Visibility
  interface : SymInterface
  symbolClass : String
  datatype : Option String
deriving DecidableEq, Repr

/-- `Symbol.copy` via `Symbol._base_copy` (symbol.py lines 247-300): a
new object of the same class with the same name and state, with the
interface and visibility optionally overridden. -/
def PSymbol.copy (s : PSymbol) (interface : Option SymInterface := none)
    (visibility : Option Visibility := none) : PSymbol :=
  { s with interface := interface.getD s.interface,
           visibility := visibility.getD s.visibility }

/-- `Symbol.is_global` (symbol.py lines 391-398). -/
def PSymbol.is_global (s : PSymbol) : Bool :=
  match s.interface with
  | .globalI _ => true
  | _ => false

/-- `Symbol.resolve_deferred` (symbol.py lines 303-337): for a symbol
with a global interface, look up the same name in the referenced
container's symbol table restricted to public visibility (the
`lookup(..., visibility=PUBLIC)` call is modelled from the spec, §4.1:
an absent name gives the `KeyError` branch, a present non-public one
the `SymbolError` branch) and return a copy of the external symbol
carrying this symbol's interface and visibility; on failure raise a
`SymbolError` (the spec's `UnresolvableImport` kind, whose stored text
is prefixed "PSyclone SymbolTable error: ").  `env` maps a container
name to that container's symbol table. -/
def resolve_deferred (env : String → List PSymbol) (s : PSymbol) :
    Except String PSymbol :=
  match s.interface with
  | .globalI container =>
    match (env container).find? (fun t => t.name = s.name) with
    | none =>
      .error ("PSyclone SymbolTable error: Error trying to resolve the "
        ++ "properties of symbol " ++ s.name ++ ". The interface points to "
        ++ "module " ++ container ++ " but could not find the definition of "
        ++ s.name ++ " in that module.")
    | some extern_symbol =>
      if extern_symbol.visibility = Visibility.PUBLIC then
        .ok (extern_symbol.copy (some s.interface) (some s.visibility))
      else
        .error ("PSyclone SymbolTable error: Error trying to resolve the "
          ++ "properties of symbol " ++ s.name ++ " in module "
          ++ container ++ ".")
  | _ => .ok s

/-- Expressions in the GOcean schedule model: literals, plain
references and structure references (e.g.
`fld%grid%subdomain%internal%xstop`). -/
inductive GOExpr where
  | lit (v : Int)
  | ref (name : String)
  | structRef (base : String) (members : List String)
deriving DecidableEq, Repr

/-- Statements of a GOcean invoke schedule: assignments (with the
`preceding_comment` attribute), kernel calls carrying their
`index_offset`, and `GOLoop`s with loop type, field space, iteration
space, `[start, stop, step]` children and a body. -/
inductive GOStmt where
  | assign (lhs rhs : GOExpr) (comment : String)
  | kern (index_offset : String)
  | goloop (loop_type field_space iteration_space : String)
           (start stop step : GOExpr) (body : List GOStmt)
deriving Repr

/-- A routine argument: its name and, when its datatype is a
`DataTypeSymbol`, that type's name (`none` for any other datatype). -/
structure GOArg where
  name : String
  datatype : Option String
deriving DecidableEq, Repr

/-- A `GOInvokeSchedule`: ordered children, the names in its symbol
table, and its argument list. -/
structure GOInvokeSchedule where
  children : List GOStmt
  symbols : List String
  argument_list : List GOArg
deriving Repr

/-- A PSyIR node handed to `GOConstLoopBoundsTrans`: either a
`GOInvokeSchedule` or some other node kind (carrying its type name). -/
inductive GONode where
  | goInvokeSchedule (s : GOInvokeSchedule)
  | other (kind : String)
deriving Repr

/-- The errors a transformation run can raise: `TransformationError`
and the Python `NameError`/`IndexError` escape paths of
`GOConstLoopBoundsTrans.apply`. -/
inductive PyError where
  | transformationError (msg : String)
  | nameError (msg : String)
  | indexError (msg : String)
deriving DecidableEq, Repr

/-- Modelled from the spec: `SymbolTable.new_symbol` is not under
`src/`; per §4.1 `new_unique_name(root)` returns `root` if free, else
`root_1`, `root_2`, … (fuel-bounded search; within `n+1` candidates one
is always free). -/
def freshAux (table : List String) (root : String) : Nat → Nat → String
  | 0, i => root ++ "_" ++ toString i
  | fuel + 1, i =>
    let cand := root ++ "_" ++ toString i
    if cand ∉ table then cand else freshAux table root fuel (i + 1)

/-- Modelled from the spec: the unique name chosen by
`symbol_table.new_symbol(root, ...)`. -/
def new_symbol_name (table : List String) (root : String) : String :=
  if root ∉ table then root else freshAux table root (table.length + 1) 1

/-- The member path of the GOcean `go_grid_xstop` grid property
(`{0}%grid%subdomain%internal%xstop` in the default configuration;
the configuration file is outside `src/`), after the source's
`xstop.split(chr 37)[1:]`. -/
def go_grid_xstop_members : List String := ["grid", "subdomain", "internal", "xstop"]

/-- The member path of the GOcean `go_grid_ystop` grid property. -/
def go_grid_ystop_members : List String := ["grid", "subdomain", "internal", "ystop"]

/-- The first kernel found by `loop.walk(GOKern)` in a list of
statements (depth-first), giving its `index_offset`
(gocean_const_loop_bounds_trans.py lines 180-182; `firstKernStmt` is
the per-node step). -/
def firstKernStmt : GOStmt → Option String
  | .assign _ _ _ => none
  | .kern off => some off
  | .goloop _ _ _ _ _ _ body => firstKern body
where
  /-- first kernel in a statement list, depth-first. -/
  firstKern : List GOStmt → Option String
  | [] => none
  | st :: rest =>
    match firstKernStmt st with
    | some off => some off
    | none => firstKern rest

/-- `GOConstLoopBoundsTrans.validate`
(gocean_const_loop_bounds_trans.py lines 100-115). -/
def GOConstLoopBoundsTrans.validate : GONode → Except PyError Unit
  | .goInvokeSchedule _ => .ok ()
  | .other _ =>
    .error (.transformationError
      "Error in GOConstLoopBoundsTrans: node is not a GOInvokeSchedule")

/-- The in-place loop over `node.walk(GOLoop)` of
`GOConstLoopBoundsTrans.apply` (gocean_const_loop_bounds_trans.py lines
174-217), processing loops depth-first: read the loop's kernel
`index_offset` (empty when it has no kernel), raise a
`TransformationError` for an unsupported offset — leaving this loop and
everything after it untouched but every earlier rewrite in place — and
otherwise replace the loop's start and stop children with the bounds
from the lookup table.  `bounds_lookup` models
`GOLoop._bounds_lookup[...]` plus the format/parse steps (not under
`src/`), keyed by offset, field space, iteration space and loop type,
given the stop-variable name. -/
def procGOStmt (sup : List String)
    (bounds_lookup : String → String → String → String → String → GOExpr × GOExpr)
    (istop jstop : String) : GOStmt → Option PyError × GOStmt
  | .assign l r c => (none, .assign l r c)
  | .kern off => (none, .kern off)
  | .goloop lt fs its start stop step body =>
    let index_offset := (firstKernStmt.firstKern body).getD ""
    if index_offset ∉ sup then
      (some (.transformationError
        ("Constant bounds generation not implemented for a grid offset of "
          ++ index_offset ++ ".")),
       .goloop lt fs its start stop step body)
    else
      let stopName := if lt = "inner" then istop else jstop
      let nb := bounds_lookup index_offset fs its lt stopName
      let resBody := procGOStmts body
      (resBody.1, .goloop lt fs its nb.1 nb.2 step resBody.2)
where
  /-- the walk over a statement list, stopping at the first error and
  leaving the remaining statements untouched. -/
  procGOStmts : List GOStmt → Option PyError × List GOStmt
  | [] => (none, [])
  | st :: rest =>
    let r1 := procGOStmt sup bounds_lookup istop jstop st
    match r1.1 with
    | some e => (some e, r1.2 :: rest)
    | none =>
      let r2 := procGOStmts rest
      (r2.1, r1.2 :: r2.2)

/-- `GOConstLoopBoundsTrans.apply`
(gocean_const_loop_bounds_trans.py lines 117-219): validate; create the
`istop`/`jstop` symbols; read the first argument (Python `IndexError`
when the argument list is empty); find the first `r2d_field` argument
(Python `NameError` when there is none); insert the two bound
assignments at positions 0 and 1; then rewrite every `GOLoop`.  The
result pairs the outcome with the (possibly partially mutated) node, as
left behind when an exception propagates.  `sup` models
`GOceanConstants().SUPPORTED_OFFSETS` (not under `src/`). -/
def GOConstLoopBoundsTrans.apply (sup : List String)
    (bounds_lookup : String → String → String → String → String → GOExpr × GOExpr)
    (node : GONode) : Except PyError Unit × GONode :=
  match GOConstLoopBoundsTrans.validate node with
  | .error e => (.error e, node)
  | .ok _ =>
    match node with
    | .other k => (.ok (), .other k)
    | .goInvokeSchedule s =>
      let istop := new_symbol_name s.symbols "istop"
      let symbols1 := s.symbols ++ [istop]
      let jstop := new_symbol_name symbols1 "jstop"
      let symbols2 := symbols1 ++ [jstop]
      match s.argument_list with
      | [] =>
        (.error (.indexError "list index out of range"),
         .goInvokeSchedule { s with symbols := symbols2 })
      | _ :: _ =>
        match s.argument_list.find? (fun a => a.datatype = some "r2d_field") with
        | none =>
          (.error (.nameError "name field is not defined"),
           .goInvokeSchedule { s with symbols := symbols2 })
        | some field =>
          let assign1 := GOStmt.assign (.ref istop)
            (.structRef field.name go_grid_xstop_members) "Look-up loop bounds"
          let assign2 := GOStmt.assign (.ref jstop)
            (.structRef field.name go_grid_ystop_members) ""
          let children1 := assign1 :: assign2 :: s.children
          let res := procGOStmt.procGOStmts sup bounds_lookup istop jstop children1
          match res.1 with
          | some e =>
            (.error e, .goInvokeSchedule { s with symbols := symbols2,
                                                  children := res.2 })
          | none =>
            (.ok (), .goInvokeSchedule { s with symbols := symbols2,
                                                children := res.2 })

/-- The number of children of a node handed to
`GOConstLoopBoundsTrans`. -/
def GONode.childCount : GONode → Nat
  | .goInvokeSchedule s => s.children.length
  | .other _ => 0

/-- A PSyIR node handed to `ACCUpdateTrans`: a schedule (of any
concrete schedule type `α`) or some other node kind. -/
inductive ACCNode (α : Type) where
  | schedule (s : α)
  | other (kind : String)
deriving DecidableEq, Repr

/-- `ACCUpdateTrans.validate` (acc_update_trans.py lines 70-90). -/
def ACCUpdateTrans.validate {α : Type} : ACCNode α → Except PyError Unit
  | .schedule _ => .ok ()
  | .other k =>
    .error (.transformationError
      ("Expected a Schedule but got a node of type " ++ k))

/-- `ACCUpdateTrans.apply` (acc_update_trans.py lines 92-108): validate
first, then hand the schedule to the recursive `add_updates` routine.
`add_updates` is kept as a parameter (any function on schedules): the
source routine only runs after `validate` has succeeded, which is all
the atomicity statement needs; the branch for a non-schedule after a
successful `validate` is unreachable. -/
def ACCUpdateTrans.apply {α : Type} (add_updates : α → α) (node : ACCNode α) :
    Except PyError Unit × ACCNode α :=
  match ACCUpdateTrans.validate node with
  | .error e => (.error e, node)
  | .ok _ =>
    match node with
    | .schedule s => (.ok (), .schedule (add_updates s))
    | .other k => (.ok (), .other k)

/-- The concrete supported-offsets list used in the C2 evaluation. -/
def exSupported : List String := ["go_offset_sw", "go_offset_ne"]

/-- A concrete bounds-lookup table for the C2 evaluation. -/
def exBounds : String → String → String → String → String → GOExpr × GOExpr :=
  fun _ _ _ _ stopName => (.lit 1, .ref stopName)

/-- A concrete `GOInvokeSchedule`: one `r2d_field` argument and a
single kernel-less `GOLoop` (so its `index_offset` is the empty string,
which is not a supported offset). -/
def exGOSched : GOInvokeSchedule :=
  { children := [.goloop "inner" "go_cu" "go_internal_pts"
      (.lit 1) (.lit 10) (.lit 1) []],
    symbols := [],
    argument_list := [⟨"fld", some "r2d_field"⟩] }

/-- An index expression of an array access in the forms `gen_stencil`
recognises (sir.py lines 82-110): a plain reference, or reference
plus/minus an integer literal (any other index raises `VisitorError`
and is outside this model). -/
inductive SIRIdx where
  | iref (name : String)
  | iadd (name : String) (v : Int)
  | isub (name : String) (v : Int)
deriving DecidableEq, Repr

/-- The symbol data consulted when declaring a name (sir.py lines
344-384): the number of array dimensions (`len(shape)`; `0` for a
scalar) and whether the symbol has a local interface. -/
structure SIRSymbol where
  numDims : Nat
  is_local : Bool
deriving DecidableEq, Repr

/-- The PSyIR node kinds handled by the `SIRWriter` visitor methods
used here.  A `binaryOperation` carries the already-mapped SIR operator
symbol (the source maps PSyIR operators through `binary_operators` and
raises `VisitorError` for unmapped ones); a `literal` carries its value
text and its mapped SIR type (`TYPE_MAP_TO_SIR`); references carry the
symbol data their `node.symbol` would supply. -/
inductive SIRNode where
  | assignment (lhs rhs : SIRNode)
  | binaryOperation (op : String) (lhs rhs : SIRNode)
  | reference (name : String) (sym : SIRSymbol)
  | arrayReference (name : String) (sym : SIRSymbol) (indices : List SIRIdx)
  | literal (value : String) (sirType : String)
deriving DecidableEq, Repr

/-- The indentation text for a given depth (`PSyIRVisitor._nindent`
with the `SIRWriter` defaults: indent string two spaces, initial depth
zero). -/
def nindent (d : Nat) : String := String.join (List.replicate d "  ")

/-- `gen_stencil` (sir.py lines 64-110): build the three-entry stencil
offset list from the index expressions (a reference contributes `0`, a
reference plus/minus a literal contributes the signed literal); indices
beyond the third raise `IndexError` in the source (`dims[idx]`) and are
outside this model (extra entries are ignored here). -/
def gen_stencil (indices : List SIRIdx) : String :=
  let dimOf : SIRIdx → String
    | .iref _ => "0"
    | .iadd _ v => toString v
    | .isub _ v => toString (-v)
  let dims := (indices.take 3).map dimOf
    ++ List.replicate (3 - indices.length) "0"
  "[" ++ String.intercalate ", " dims ++ "]"

/-- Insertion into a Python `set`, content-wise: the contents are kept
as a duplicate-free list in first-insertion order; the *iteration*
order of the set is a separate, unspecified permutation (see
`sirDeclarations`). -/
def setAdd (l : List String) (n : String) : List String :=
  if n ∈ l then l else l ++ [n]

/-- Insertion into a Python `dict`: an existing key keeps its position
and gets the new value, a new key is appended. -/
def dictSet (d : List (String × SIRSymbol)) (k : String) (v : SIRSymbol) :
    List (String × SIRSymbol) :=
  match d with
  | [] => [(k, v)]
  | (k2, v2) :: rest =>
    if k2 = k then (k2, v) :: rest else (k2, v2) :: dictSet rest k v

/-- The per-output-unit state of a `SIRWriter` (sir.py lines 129-145):
the distinct field and scalar names referenced during the walk and the
per-name node/symbol data. -/
structure SIRState where
  field_names : List String
  fields : List (String × SIRSymbol)
  scalar_names : List String
  scalars : List (String × SIRSymbol)
deriving DecidableEq, Repr

/-- The state of a freshly constructed `SIRWriter`
(`SIRWriter.__init__`, sir.py lines 129-145). -/
def SIRState.initial : SIRState := ⟨[], [], [], []⟩

/-- The `SIRWriter` visitor methods `assignment_node`,
`binaryoperation_node`, `reference_node`, `arrayreference_node` and
`literal_node` (sir.py lines 402-544): each returns its SIR text and
threads the name-accumulation state (`_field_names`/`_fields` updated
at lines 519-520, `_scalar_names`/`_scalars` at lines 496-497).  The
source's cosmetic `rstrip` re-formatting of already-built text is
elided; the placement and content of the accumulated names are kept
exactly. -/
def sirVisit (d : Nat) (st : SIRState) : SIRNode → String × SIRState
  | .assignment lhs rhs =>
    let l := sirVisit (d + 1) st lhs
    let r := sirVisit (d + 1) l.2 rhs
    (nindent d ++ "make_assignment_stmt(\n" ++ l.1 ++ ",\n" ++ r.1 ++ ",\n"
      ++ nindent d ++ "  " ++ "\"=\"),\n", r.2)
  | .binaryOperation op lhs rhs =>
    let l := sirVisit (d + 1) st lhs
    let r := sirVisit (d + 1) l.2 rhs
    (nindent d ++ "make_binary_operator(\n" ++ l.1 ++ ",\n"
      ++ nindent d ++ "  " ++ "\"" ++ op ++ "\",\n" ++ r.1 ++ "\n"
      ++ nindent d ++ "  " ++ ")\n", r.2)
  | .reference name sym =>
    (nindent d ++ "make_field_access_expr(\"" ++ name ++ "\")",
     { st with scalar_names := setAdd st.scalar_names name,
               scalars := dictSet st.scalars name sym })
  | .arrayReference name sym indices =>
    (nindent d ++ "make_field_access_expr(\"" ++ name ++ "\", "
      ++ gen_stencil indices ++ ")",
     { st with field_names := setAdd st.field_names name,
               fields := dictSet st.fields name sym })
  | .literal value sirType =>
    (nindent d ++ "make_literal_access_expr(\"" ++ value ++ "\", "
      ++ sirType ++ ")", st)

/-- The walk over the schedule's children
(`nemoinvokeschedule_node`, sir.py lines 332-334), accumulating the
emitted text and the name state. -/
def sirVisitList (d : Nat) (st : SIRState) : List SIRNode → String × SIRState
  | [] => ("", st)
  | n :: rest =>
    let r := sirVisit d st n
    let r2 := sirVisitList d r.2 rest
    (r.1 ++ r2.1, r2.2)

/-- The name-accumulation state after walking a schedule's children
with a fresh writer. -/
def sirState (children : List SIRNode) : SIRState :=
  (sirVisitList 0 SIRState.initial children).2

/-- The body text emitted for a schedule's children with a fresh
writer. -/
def sirBodyText (children : List SIRNode) : String :=
  (sirVisitList 0 SIRState.initial children).1

/-- `mapM` over `Except`, written recursively so that it reduces (the
source's for-loop appending to `functions`, with an exception aborting
the whole emission). -/
def exceptMapM (f : String → Except String String) :
    List String → Except String (List String)
  | [] => .ok []
  | a :: as =>
    match f a with
    | .error e => .error e
    | .ok b =>
      match exceptMapM f as with
      | .error e => .error e
      | .ok bs => .ok (b :: bs)

/-- One field declaration (sir.py lines 344-369): dimensions from the
symbol's shape (three, two or one dimensions; anything else raises),
`is_temporary` for local symbols. -/
def makeFieldDecl (name : String) (sym : SIRSymbol) : Except String String :=
  let dims := if sym.numDims = 3 then some "[1, 1, 1]"
              else if sym.numDims = 2 then some "[1, 1, 0]"
              else if sym.numDims = 1 then some "[0, 0, 1]"
              else none
  match dims with
  | none => .error "Unexpected number of dimensions"
  | some ds =>
    .ok ("make_field(\"" ++ name ++ "\", make_field_dimensions_cartesian("
      ++ ds ++ ")" ++ (if sym.is_local then ", is_temporary=True" else "") ++ ")")

/-- One scalar declaration (sir.py lines 372-384): scalar temporaries
are declared as `[1, 0, 0]` field temporaries. -/
def makeScalarDecl (name : String) (sym : SIRSymbol) : String :=
  "make_field(\"" ++ name ++ "\", make_field_dimensions_cartesian([1, 0, 0])"
    ++ (if sym.is_local then ", is_temporary=True" else "") ++ ")"

/-- The declaration list built after the body
(`nemoinvokeschedule_node`, sir.py lines 344-385): one `make_field`
entry for each name in `_field_names`, then one for each name in
`_scalar_names`.  Both are Python `set`s, so their iteration order is
an unspecified permutation of their contents: `enum` supplies that
order (any function; the theorems constrain it to permutations). -/
def sirDeclarations (enum : List String → List String) (st : SIRState) :
    Except String (List String) :=
  match exceptMapM (fun name =>
      match st.fields.lookup name with
      | none => .error "KeyError"
      | some sym => makeFieldDecl name sym) (enum st.field_names) with
  | .error e => .error e
  | .ok fdecls =>
    match exceptMapM (fun name =>
        match st.scalars.lookup name with
        | none => .error "KeyError"
        | some sym => .ok (makeScalarDecl name sym)) (enum st.scalar_names) with
    | .error e => .error e
    | .ok sdecls => .ok (fdecls ++ sdecls)

/-- The declaration names in emission order: the set-iteration order of
the field names followed by that of the scalar names. -/
def sirDeclNames (enum : List String → List String) (st : SIRState) :
    List String :=
  enum st.field_names ++ enum st.scalar_names

/-- The fixed text emitted before the walked body
(`nemoinvokeschedule_node`, sir.py lines 322-331). -/
def nemoHeader : String :=
  "# PSyclone autogenerated SIR Python\n\n"
    ++ "from dawn4py.serialization.utils import *\n"
    ++ "from dawn4py.serialization.AST import Interval, VerticalRegion, BuiltinType\n"
    ++ "from dawn4py.serialization import AST\n"
    ++ "import dawn4py\n\n"
    ++ "vertical_region_fns = []\n"
    ++ "stencil_name = \"psyclone\"\n"

/-- The `make_sir` opener emitted between the body and the
declarations (sir.py lines 337-343, at depth zero). -/
def nemoMakeSirOpen : String :=
  "sir = make_sir(stencil_name+\".cpp\", AST.GridType.Value(\"Cartesian\"), [\n"
    ++ "  make_stencil(\n"
    ++ "    stencil_name,\n"
    ++ "    make_ast(vertical_region_fns),\n"
    ++ "    ["

/-- The fixed text emitted after the declarations (sir.py lines
386-398). -/
def nemoFooter : String :=
  "]\n" ++ "  )\n" ++ "])\n"
    ++ "# code = dawn4py.compile(sir, backend=dawn4py.CodeGenBackend.CXXNaive)\n"
    ++ "code = dawn4py.compile(sir, backend=dawn4py.CodeGenBackend.CUDA)\n"
    ++ "# code = dawn4py.compile(sir, backend=dawn4py.CodeGenBackend.GridTools)\n"
    ++ "print (code)"

/-- `SIRWriter.nemoinvokeschedule_node` (sir.py lines 311-400): header,
then the walked body, then the `make_sir` opener, then the
comma-joined declarations of the names accumulated during the walk,
then the footer. -/
def nemoinvokeschedule_node (enum : List String → List String)
    (children : List SIRNode) : Except String String :=
  let body := sirVisitList 0 SIRState.initial children
  match sirDeclarations enum body.2 with
  | .error e => .error e
  | .ok decls =>
    .ok (nemoHeader ++ body.1 ++ "\n" ++ nemoMakeSirOpen
      ++ String.intercalate ", " decls ++ nemoFooter)

/-- A concrete statement for the C9 evaluation: `a(i) = b(i)` with
three-dimensional non-local field symbols. -/
def exSirStmt : SIRNode :=
  .assignment (.arrayReference "a" ⟨3, false⟩ [.iref "i"])
              (.arrayReference "b" ⟨3, false⟩ [.iref "i"])

-- ======================= theorems =======================

/-- `scanIndices` succeeds (collecting all dependent index expressions)
exactly when every newly found index location matches the previously
recorded one; otherwise it fails with the index-location warning. -/
theorem scanIndices_eq (vn lv : String) (l : List ((Nat × Nat) × SExpr)) :
    ∀ (found : Option (Nat × Nat)) (all : List SExpr),
    scanIndices vn lv l found all =
      if posChainOK found l then (some (all ++ l.map Prod.snd), ([] : List Msg))
      else (none, [Msg.warning ("Variable " ++ vn ++ " is using loop variable "
              ++ lv ++ " in two index locations.")]) := by
  induction l with
  | nil => intro found all; simp [scanIndices, posChainOK]
  | cons hd t ih =>
    intro found all
    obtain ⟨p, e⟩ := hd
    cases found with
    | none =>
      rw [show scanIndices vn lv ((p, e) :: t) none all
            = scanIndices vn lv t (some p) (all ++ [e]) from rfl, ih]
      simp [posChainOK]
    | some q =>
      by_cases hqp : q = p
      · subst hqp
        rw [show scanIndices vn lv ((q, e) :: t) (some q) all
              = scanIndices vn lv t (some q) (all ++ [e]) from by
            simp [scanIndices], ih]
        simp [posChainOK]
      · rw [show scanIndices vn lv ((p, e) :: t) (some q) all
              = (none, [Msg.warning ("Variable " ++ vn ++ " is using loop variable "
                  ++ lv ++ " in two index locations.")]) from by
            simp [scanIndices, hqp]]
        simp [posChainOK, hqp]

/-- The consecutive-position check starting from a recorded location `q`
holds iff every later dependent index uses location `q`. -/
theorem posChainOK_some (l : List ((Nat × Nat) × SExpr)) :
    ∀ q, posChainOK (some q) l = true ↔ ∀ x ∈ l, x.1 = q := by
  induction l with
  | nil => simp [posChainOK]
  | cons hd t ih =>
    intro q
    obtain ⟨p, e⟩ := hd
    simp only [posChainOK, Bool.and_eq_true, decide_eq_true_eq, ih p, List.mem_cons]
    constructor
    · rintro ⟨rfl, h2⟩
      intro x hx
      rcases hx with rfl | hx
      · rfl
      · exact h2 x hx
    · intro h
      refine ⟨(h (p, e) (Or.inl rfl)).symm, fun x hx => ?_⟩
      exact (h x (Or.inr hx)).trans (h (p, e) (Or.inl rfl)).symm

/-- The consecutive-position check starting with no recorded location
holds iff all dependent indices use one and the same location. -/
theorem posChainOK_none (l : List ((Nat × Nat) × SExpr)) :
    posChainOK none l = true ↔ ∀ x ∈ l, ∀ y ∈ l, x.1 = y.1 := by
  cases l with
  | nil => simp [posChainOK]
  | cons hd t =>
    obtain ⟨p, e⟩ := hd
    simp only [posChainOK]
    rw [posChainOK_some]
    constructor
    · intro hall x hx y hy
      have h1 : x.1 = p := by
        rcases List.mem_cons.mp hx with rfl | hx
        · rfl
        · exact hall x hx
      have h2 : y.1 = p := by
        rcases List.mem_cons.mp hy with rfl | hy
        · rfl
        · exact hall y hy
      rw [h1, h2]
    · intro hpair x hx
      exact hpair x (List.mem_cons_of_mem _ hx) (p, e) (List.mem_cons_self _ _)

/-- C3: for every variable access record and loop variable,
`is_array_parallelisable` returns true if the variable is read-only;
otherwise (when the loop variable appears in some index expression) it
returns true iff every index expression depending on the loop variable
occupies the same (component, dimension) position across all accesses
and all such index expressions are mutually expression-equal; and when
the variable is written but the loop variable appears in no index
expression, it returns false and reports the ambiguity on the
warning-message channel rather than raising an error.  Stated for any
expression-equality `mathEq` (the PSyIR `math_equal`) that is an
equivalence. -/
theorem C3_is_array_parallelisable
    (mathEq : SExpr → SExpr → Bool)
    (hrefl : ∀ e, mathEq e e = true)
    (hsymm : ∀ a b, mathEq a b = mathEq b a)
    (htrans : ∀ a b c, mathEq a b = true → mathEq b c = true → mathEq a c = true)
    (lv : String) (vi : SingleVariableAccessInfo) :
    (vi.is_read_only = true → (is_array_parallelisable mathEq lv vi).1 = true) ∧
    (vi.is_read_only = false → depIndices lv vi ≠ [] →
      ((is_array_parallelisable mathEq lv vi).1 = true ↔
        ((∀ x ∈ depIndices lv vi, ∀ y ∈ depIndices lv vi, x.1 = y.1) ∧
         (∀ e ∈ (depIndices lv vi).map Prod.snd,
          ∀ f ∈ (depIndices lv vi).map Prod.snd, mathEq e f = true)))) ∧
    (vi.is_read_only = false → depIndices lv vi = [] →
      (is_array_parallelisable mathEq lv vi).1 = false ∧
      ∃ m ∈ (is_array_parallelisable mathEq lv vi).2, m.isWarning = true) := by
  refine ⟨?_, ?_, ?_⟩
  · intro hro
    simp [is_array_parallelisable, hro]
  · intro hro hne
    simp only [is_array_parallelisable, hro, Bool.false_eq_true, if_false]
    rw [scanIndices_eq]
    by_cases hchain : posChainOK none (depIndices lv vi) = true
    · rw [if_pos hchain, List.nil_append]
      rcases hd : (depIndices lv vi).map Prod.snd with _ | ⟨first, rest⟩
      · exact absurd (List.map_eq_nil_iff.mp hd) hne
      · dsimp only
        rcases hfind : rest.find? (fun index => ¬ mathEq first index) with _ | x
        · dsimp only
          have hall : ∀ x ∈ rest, mathEq first x = true := by
            intro x hx
            have := List.find?_eq_none.mp hfind x hx
            simpa using this
          constructor
          · intro _
            refine ⟨(posChainOK_none _).mp hchain, ?_⟩
            intro e he f hf
            rcases List.mem_cons.mp he with he1 | he2 <;>
              rcases List.mem_cons.mp hf with hf1 | hf2
            · rw [he1, hf1]; exact hrefl first
            · rw [he1]; exact hall f hf2
            · rw [hf1, hsymm]; exact hall e he2
            · exact htrans e first f (by rw [hsymm]; exact hall e he2) (hall f hf2)
          · intro _; rfl
        · dsimp only
          constructor
          · intro h; exact absurd h (by simp)
          · rintro ⟨_, hpair⟩
            have hx : x ∈ rest := List.mem_of_find?_eq_some hfind
            have hpx := List.find?_some hfind
            have : mathEq first x = true :=
              hpair first (List.mem_cons_self _ _) x (List.mem_cons_of_mem _ hx)
            simp [this] at hpx
    · rw [if_neg hchain]
      dsimp only
      constructor
      · intro h; exact absurd h (by simp)
      · rintro ⟨hpos, _⟩
        exact absurd ((posChainOK_none _).mpr hpos) hchain
  · intro hro hdep
    simp [is_array_parallelisable, hro, hdep, scanIndices, Msg.isWarning]

/-- Witness for C3 at concrete inputs: structural equality as `mathEq`;
a variable `b` written as `b(j)` and read as `b(j)` is parallelisable
over `j`; a variable `a` written only as `a(1)` (the loop variable in no
index) is rejected with a warning. -/
theorem C3_is_array_parallelisable_witness :
    (is_array_parallelisable (fun a b => decide (a = b)) "j"
      ⟨"b", [⟨AccessType.WRITE, [[SExpr.var "j"]]⟩,
             ⟨AccessType.READ, [[SExpr.var "j"]]⟩]⟩).1 = true ∧
    ((is_array_parallelisable (fun a b => decide (a = b)) "j"
      ⟨"a", [⟨AccessType.WRITE, [[SExpr.lit 1]]⟩]⟩).1 = false ∧
     ∃ m ∈ (is_array_parallelisable (fun a b => decide (a = b)) "j"
      ⟨"a", [⟨AccessType.WRITE, [[SExpr.lit 1]]⟩]⟩).2, m.isWarning = true) := by
  have heq : ∀ a b c : SExpr, decide (a = b) = true → decide (b = c) = true →
      decide (a = c) = true := by
    intro a b c h1 h2
    simp only [decide_eq_true_eq] at *
    exact h1.trans h2
  have h1 := C3_is_array_parallelisable (fun a b => decide (a = b))
    (by simp) (by intro a b; simp [eq_comm]) heq "j"
    ⟨"b", [⟨AccessType.WRITE, [[SExpr.var "j"]]⟩,
           ⟨AccessType.READ, [[SExpr.var "j"]]⟩]⟩
  have h2 := C3_is_array_parallelisable (fun a b => decide (a = b))
    (by simp) (by intro a b; simp [eq_comm]) heq "j"
    ⟨"a", [⟨AccessType.WRITE, [[SExpr.lit 1]]⟩]⟩
  refine ⟨(h1.2.1 (by decide) (by decide)).mpr ⟨by decide, by decide⟩,
          h2.2.2 (by decide) (by decide)⟩

/-- C4: for every scalar variable access record,
`is_scalar_parallelisable` returns true if all accesses are reads;
returns false if there is exactly one access in total (a single write);
returns true if there are at least two accesses and the first access in
execution order is a write; and returns false (flagged as a reduction
via a warning message) if the first access is a read that precedes a
write. -/
theorem C4_is_scalar_parallelisable (vi : SingleVariableAccessInfo) :
    ((∀ a ∈ vi.all_accesses, a.access_type = AccessType.READ) →
      (is_scalar_parallelisable vi).1 = true) ∧
    (∀ a, vi.all_accesses = [a] → a.access_type = AccessType.WRITE →
      (is_scalar_parallelisable vi).1 = false) ∧
    (∀ a rest, vi.all_accesses = a :: rest → rest ≠ [] →
      a.access_type = AccessType.WRITE → (is_scalar_parallelisable vi).1 = true) ∧
    (∀ a rest, vi.all_accesses = a :: rest → a.access_type = AccessType.READ →
      (∃ b ∈ rest, b.access_type = AccessType.WRITE ∨
                   b.access_type = AccessType.READWRITE) →
      (is_scalar_parallelisable vi).1 = false ∧
      ∃ m ∈ (is_scalar_parallelisable vi).2, m.isWarning = true) := by
  refine ⟨?_, ?_, ?_, ?_⟩
  · intro hall
    have hro : vi.is_read_only = true := by
      simp only [SingleVariableAccessInfo.is_read_only, List.all_eq_true]
      intro a ha
      rw [hall a ha]
      simp
    simp [is_scalar_parallelisable, hro]
  · intro a hacc hw
    have hro : vi.is_read_only = false := by
      simp only [SingleVariableAccessInfo.is_read_only, hacc]
      simp [hw]
    simp [is_scalar_parallelisable, hro, hacc]
  · intro a rest hacc hrest hw
    have hro : vi.is_read_only = false := by
      simp only [SingleVariableAccessInfo.is_read_only, hacc]
      simp [hw]
    rcases rest with _ | ⟨b, t⟩
    · exact absurd rfl hrest
    · simp [is_scalar_parallelisable, hro, hacc, hw]
  · intro a rest hacc hr hw
    obtain ⟨b, hb, hbw⟩ := hw
    have hro : vi.is_read_only = false := by
      simp only [SingleVariableAccessInfo.is_read_only, List.all_eq_false]
      refine ⟨b, by rw [hacc]; exact List.mem_cons_of_mem _ hb, ?_⟩
      rcases hbw with h | h <;> simp [h]
    rcases rest with _ | ⟨c, t⟩
    · exact absurd hb (List.not_mem_nil b)
    · have hna : a.access_type ≠ AccessType.WRITE := by rw [hr]; simp
      simp [is_scalar_parallelisable, hro, hacc, hna, Msg.isWarning]

/-- Witness for C4 at concrete access records: a read-only scalar
passes; a single-write scalar fails; a write-then-read scalar passes; a
read-then-write scalar fails with a warning flagged. -/
theorem C4_is_scalar_parallelisable_witness :
    (is_scalar_parallelisable ⟨"r", [⟨AccessType.READ, []⟩]⟩).1 = true ∧
    (is_scalar_parallelisable ⟨"w", [⟨AccessType.WRITE, []⟩]⟩).1 = false ∧
    (is_scalar_parallelisable
      ⟨"t", [⟨AccessType.WRITE, []⟩, ⟨AccessType.READ, []⟩]⟩).1 = true ∧
    ((is_scalar_parallelisable
      ⟨"s", [⟨AccessType.READ, []⟩, ⟨AccessType.WRITE, []⟩]⟩).1 = false ∧
     ∃ m ∈ (is_scalar_parallelisable
      ⟨"s", [⟨AccessType.READ, []⟩, ⟨AccessType.WRITE, []⟩]⟩).2,
        m.isWarning = true) := by
  refine ⟨?_, ?_, ?_, ?_⟩
  · exact (C4_is_scalar_parallelisable ⟨"r", [⟨AccessType.READ, []⟩]⟩).1 (by decide)
  · exact (C4_is_scalar_parallelisable ⟨"w", [⟨AccessType.WRITE, []⟩]⟩).2.1
      ⟨AccessType.WRITE, []⟩ rfl rfl
  · exact (C4_is_scalar_parallelisable
      ⟨"t", [⟨AccessType.WRITE, []⟩, ⟨AccessType.READ, []⟩]⟩).2.2.1
      ⟨AccessType.WRITE, []⟩ [⟨AccessType.READ, []⟩] rfl (by decide) rfl
  · exact (C4_is_scalar_parallelisable
      ⟨"s", [⟨AccessType.READ, []⟩, ⟨AccessType.WRITE, []⟩]⟩).2.2.2
      ⟨AccessType.READ, []⟩ [⟨AccessType.WRITE, []⟩] rfl rfl
      ⟨⟨AccessType.WRITE, []⟩, by decide, Or.inl rfl⟩

/-- The per-variable predicate applied by `can_loop_be_parallelised` to
one signature: the signature is skipped (a loop variable or explicitly
ignored) or its array/scalar check passes. -/
theorem checkVars_result (mathEq : SExpr → SExpr → Bool) (lv : String)
    (loop_vars ign : List String) (sym : String → Bool) (tav : Bool)
    (l : List SingleVariableAccessInfo) :
    ∀ (result : Bool) (msgs : List Msg),
    (checkVars mathEq lv loop_vars ign sym tav l result msgs).1 =
      (result && l.all (fun vi =>
        decide (vi.var_name ∈ loop_vars) || decide (vi.var_name ∈ ign) ||
        (if is_variable_array vi.var_name vi sym then
           is_array_parallelisable mathEq lv vi
         else is_scalar_parallelisable vi).1)) := by
  induction l with
  | nil => intro result msgs; simp [checkVars]
  | cons vi rest ih =>
    intro result msgs
    simp only [checkVars]
    by_cases h1 : vi.var_name ∈ loop_vars
    · rw [if_pos h1, ih]
      simp [h1]
    · rw [if_neg h1]
      by_cases h2 : vi.var_name ∈ ign
      · rw [if_pos h2, ih]
        simp [h1, h2]
      · rw [if_neg h2]
        rcases hres : (if is_variable_array vi.var_name vi sym then
            is_array_parallelisable mathEq lv vi
          else is_scalar_parallelisable vi).1 with _ | _
        · rw [if_pos (by simp [hres])]
          rcases tav with _ | _
          · rw [if_pos rfl]
            simp [h1, h2, hres]
          · rw [if_neg (by simp), ih]
            simp [h1, h2, hres]
        · rw [if_neg (by simp [hres]), ih]
          simp [h1, h2, hres]

/-- C1 counterexample: applying `can_loop_be_parallelised` (allow-list
`{"lat"}`, `only_nested_loops=True`) to the inner `lat` loop of the
claimed scenario — an innermost loop whose only array access is the
read-only access `a(ji)` — yields false ("Not a nested loop"), whereas
the claim states it returns true when the inner loop's only array
accesses are read-only: with `only_nested_loops=True` the pre-filter
requires the analysed loop itself to contain a nested loop. -/
theorem C1_counterexample :
    ((referenceAccesses [exInner]).filter
        (fun vi => vi.is_array)).all (fun vi => vi.is_read_only) = true ∧
    exOuterLon = PNode.loop "jj" "lon" [] [exInner] ∧
    can_loop_be_parallelised dtLat structuralEq (fun _ => false) exInner
      = .ok (false, [Msg.info "Not a nested loop."]) := by
  refine ⟨by decide, rfl, rfl⟩

/-- C1 (amended): for every loop node, `can_loop_be_parallelised` first
applies the loop-suitability pre-filter (type tag in the allow-list;
with `only_nested_loops=True` the loop must contain a nested loop) and
only then runs the per-variable checks, skipping every nested loop's
induction variable and every signature in `signatures_to_ignore`; in
particular, for a `lat` loop containing a nested `lon` loop — the
analysed loop must itself contain the nested loop, not sit innermost —
with allow-list `{"lat"}` and `only_nested_loops=True`, it returns true
when the loop's only array accesses are read-only, and false once one
access becomes a write whose index omits the loop variable entirely. -/
theorem C1_can_loop_be_parallelised
    (dt : DependencyTools) (mathEq : SExpr → SExpr → Bool)
    (sym : String → Bool) (v t : String) (reads : List RefAccess)
    (body : List PNode) (lvo : Option String) (onl tav : Bool)
    (ign : List String) (va : Option (List SingleVariableAccessInfo)) :
    ((is_loop_suitable_for_parallel dt (.loop v t reads body) onl).1 = false →
      can_loop_be_parallelised dt mathEq sym (.loop v t reads body) lvo onl tav ign va
        = .ok (false, (is_loop_suitable_for_parallel dt (.loop v t reads body) onl).2)) ∧
    ((is_loop_suitable_for_parallel dt (.loop v t reads body) onl).1 = true →
      ∃ msgs, can_loop_be_parallelised dt mathEq sym (.loop v t reads body) lvo onl
          tav ign va
        = .ok ((va.getD (referenceAccesses [PNode.loop v t reads body])).all
            (fun vi =>
              decide (vi.var_name ∈ (PNode.loop v t reads body).walkLoops.map
                        PNode.loopVar) ||
              decide (vi.var_name ∈ ign) ||
              (if is_variable_array vi.var_name vi sym then
                 is_array_parallelisable mathEq (lvo.getD v) vi
               else is_scalar_parallelisable vi).1), msgs)) ∧
    can_loop_be_parallelised dtLat structuralEq (fun _ => false) exLatNest
      = .ok (true, []) ∧
    can_loop_be_parallelised dtLat structuralEq (fun _ => false) exLatNestW
      = .ok (false, [Msg.warning
          "Variable b is written to, and does not depend on the loop variable jj."]) := by
  refine ⟨?_, ?_, rfl, rfl⟩
  · intro hsuit
    simp only [can_loop_be_parallelised]
    rw [if_pos hsuit]
  · intro hsuit
    refine ⟨(checkVars mathEq (lvo.getD v)
        ((PNode.loop v t reads body).walkLoops.map PNode.loopVar) ign sym tav
        (va.getD (referenceAccesses [PNode.loop v t reads body])) true []).2, ?_⟩
    simp only [can_loop_be_parallelised]
    rw [if_neg (by simp [hsuit])]
    rw [show ∀ x : Bool × List Msg, Except.ok (ε := String) x
          = Except.ok (x.1, x.2) from fun x => rfl]
    rw [checkVars_result]
    simp

/-- Witness for C1 at a concrete unsuitable input: the pre-filter
short-circuit of the amended theorem applied to the innermost `lat`
loop over `ji`, whose suitability check fails. -/
theorem C1_can_loop_be_parallelised_witness :
    (is_loop_suitable_for_parallel dtLat
      (.loop "ji" "lat" [] [.assign ⟨"x", []⟩ [⟨"a", [[SExpr.var "ji"]]⟩]])
      true).1 = false ∧
    can_loop_be_parallelised dtLat structuralEq (fun _ => false)
      (.loop "ji" "lat" [] [.assign ⟨"x", []⟩ [⟨"a", [[SExpr.var "ji"]]⟩]])
      none true false [] none
      = .ok (false, (is_loop_suitable_for_parallel dtLat
          (.loop "ji" "lat" [] [.assign ⟨"x", []⟩ [⟨"a", [[SExpr.var "ji"]]⟩]])
          true).2) :=
  ⟨by decide,
   (C1_can_loop_be_parallelised dtLat structuralEq (fun _ => false) "ji" "lat" []
      [.assign ⟨"x", []⟩ [⟨"a", [[SExpr.var "ji"]]⟩]] none true false [] none).1
      (by decide)⟩

/-- C10: `get_in_out_parameters` returns exactly the pair of
`get_input_parameters` and `get_output_parameters` on the same node
list — computing both from one shared variable-access analysis is the
same as the two separate calls. -/
theorem C10_get_in_out_parameters (node_list : List PNode) :
    get_in_out_parameters node_list
      = (get_input_parameters node_list none,
         get_output_parameters node_list none) := rfl

/-- C5: for every analysed node list, `get_input_parameters` returns
exactly the signatures whose first access in execution order is not a
write, and `get_output_parameters` returns exactly the signatures with
at least one write access; for the block `x = 1` then `y = x + z` the
input list is `[z]` and the output list is `[x, y]`. -/
theorem C5_input_output_parameters (node_list : List PNode) :
    (∀ s : String, s ∈ get_input_parameters node_list none ↔
      ∃ vi ∈ referenceAccesses node_list, vi.var_name = s ∧
        ∃ a as, vi.all_accesses = a :: as ∧ a.access_type ≠ AccessType.WRITE) ∧
    (∀ s : String, s ∈ get_output_parameters node_list none ↔
      ∃ vi ∈ referenceAccesses node_list, vi.var_name = s ∧
        ∃ a ∈ vi.all_accesses, a.access_type = AccessType.WRITE ∨
          a.access_type = AccessType.READWRITE) ∧
    get_input_parameters exBlock none = ["z"] ∧
    get_output_parameters exBlock none = ["x", "y"] := by
  refine ⟨?_, ?_, rfl, rfl⟩
  · intro s
    simp only [get_input_parameters, Option.getD_none, List.mem_map, List.mem_filter]
    constructor
    · rintro ⟨vi, ⟨hmem, hpred⟩, rfl⟩
      refine ⟨vi, hmem, rfl, ?_⟩
      rcases hacc : vi.all_accesses with _ | ⟨a, as⟩
      · rw [hacc] at hpred; simp at hpred
      · rw [hacc] at hpred
        exact ⟨a, as, rfl, by simpa using hpred⟩
    · rintro ⟨vi, hmem, rfl, a, as, hacc, hna⟩
      refine ⟨vi, ⟨hmem, ?_⟩, rfl⟩
      rw [hacc]
      simpa using hna
  · intro s
    simp only [get_output_parameters, Option.getD_none, List.mem_map,
      List.mem_filter, SingleVariableAccessInfo.is_written, List.any_eq_true]
    constructor
    · rintro ⟨vi, ⟨hmem, hpred⟩, rfl⟩
      obtain ⟨a, ha, hw⟩ := hpred
      exact ⟨vi, hmem, rfl, a, ha, by simpa using hw⟩
    · rintro ⟨vi, hmem, rfl, a, ha, hw⟩
      exact ⟨vi, ⟨hmem, ⟨a, ha, by simpa using hw⟩⟩, rfl⟩

/-- C6: the symbolic-equivalence operation `equal(expr1, expr2)` is
reflexive and symmetric, true for arithmetically equal literals
(`2` vs `1+1`), true under commutativity of `+` (`i+j` vs `j+i`),
false for distinct free variables (`i` vs `j`), and false for
structure paths with differing members (`a%b` vs `a%c`). -/
theorem C6_symbolic_maths_equal :
    (∀ e, SymbolicMaths.equal e e = true) ∧
    (∀ a b, SymbolicMaths.equal a b = SymbolicMaths.equal b a) ∧
    SymbolicMaths.equal (.lit 2) (.add (.lit 1) (.lit 1)) = true ∧
    SymbolicMaths.equal (.add (.var "i") (.var "j"))
                        (.add (.var "j") (.var "i")) = true ∧
    SymbolicMaths.equal (.var "i") (.var "j") = false ∧
    SymbolicMaths.equal (.member (.var "a") "b")
                        (.member (.var "a") "c") = false := by
  refine ⟨fun e => by simp [SymbolicMaths.equal],
          fun a b => ?_, by decide, by decide, by decide, by decide⟩
  simp only [SymbolicMaths.equal]
  exact decide_eq_decide.mpr eq_comm

/-- C7: for every symbol with an import (global) interface,
`resolve_deferred` locates the public symbol of the same name in the
referenced external module's symbol table and returns a copy that
carries the original symbol's interface and visibility but the external
symbol's class and type information; it fails with a symbol-table error
(the `UnresolvableImport` kind) when the module cannot supply a public
symbol of that name (absent, or present but not public). -/
theorem C7_resolve_deferred (env : String → List PSymbol) (s : PSymbol)
    (container : String) (hglob : s.interface = .globalI container) :
    (∀ ext, (env container).find? (fun t => t.name = s.name) = some ext →
      ext.visibility = Visibility.PUBLIC →
      ext.name = s.name ∧
      resolve_deferred env s = .ok
        { name := ext.name, visibility := s.visibility,
          interface := s.interface, symbolClass := ext.symbolClass,
          datatype := ext.datatype }) ∧
    ((env container).find? (fun t => t.name = s.name) = none →
      ∃ msg, resolve_deferred env s = .error msg) ∧
    (∀ ext, (env container).find? (fun t => t.name = s.name) = some ext →
      ext.visibility ≠ Visibility.PUBLIC →
      ∃ msg, resolve_deferred env s = .error msg) := by
  refine ⟨?_, ?_, ?_⟩
  · intro ext hfind hpub
    have hname : ext.name = s.name := by
      have := List.find?_some hfind
      simpa using this
    refine ⟨hname, ?_⟩
    simp only [resolve_deferred, hglob, hfind, hpub, if_pos]
    rfl
  · intro hfind
    simp only [resolve_deferred, hglob, hfind]
    exact ⟨_, rfl⟩
  · intro ext hfind hpub
    simp only [resolve_deferred, hglob, hfind, if_neg hpub]
    exact ⟨_, rfl⟩

/-- Witness for C7 at a concrete module table: importing symbol `f`
(private, global interface into module `m`) resolves against a public
`f` of class `DataSymbol` with type `integer`, keeping the importing
symbol's interface and visibility; a symbol `g` absent from `m` fails. -/
theorem C7_resolve_deferred_witness :
    (PSymbol.mk "f" Visibility.PRIVATE (SymInterface.globalI "m") "Symbol"
        none).interface = SymInterface.globalI "m" ∧
    resolve_deferred
      (fun mod => if mod = "m" then
        [PSymbol.mk "f" Visibility.PUBLIC SymInterface.localI "DataSymbol"
          (some "integer")] else [])
      (PSymbol.mk "f" Visibility.PRIVATE (SymInterface.globalI "m") "Symbol" none)
      = .ok (PSymbol.mk "f" Visibility.PRIVATE (SymInterface.globalI "m")
          "DataSymbol" (some "integer")) ∧
    (∃ msg, resolve_deferred
      (fun mod => if mod = "m" then
        [PSymbol.mk "f" Visibility.PUBLIC SymInterface.localI "DataSymbol"
          (some "integer")] else [])
      (PSymbol.mk "g" Visibility.PRIVATE (SymInterface.globalI "m") "Symbol" none)
      = .error msg) := by
  have h1 := C7_resolve_deferred
    (fun mod => if mod = "m" then
      [PSymbol.mk "f" Visibility.PUBLIC SymInterface.localI "DataSymbol"
        (some "integer")] else [])
    (PSymbol.mk "f" Visibility.PRIVATE (SymInterface.globalI "m") "Symbol" none)
    "m" rfl
  have h2 := C7_resolve_deferred
    (fun mod => if mod = "m" then
      [PSymbol.mk "f" Visibility.PUBLIC SymInterface.localI "DataSymbol"
        (some "integer")] else [])
    (PSymbol.mk "g" Visibility.PRIVATE (SymInterface.globalI "m") "Symbol" none)
    "m" rfl
  exact ⟨rfl,
    (h1.1 (PSymbol.mk "f" Visibility.PUBLIC SymInterface.localI "DataSymbol"
      (some "integer")) (by decide) rfl).2,
    h2.2.1 (by decide)⟩

/-- C8: the strategy returned by `SymbolicMaths.get()` is chosen lazily
on the first call (the exact strategy when the algebra engine is
importable, the fallback otherwise), every later call returns the same
object with the stored instance never replaced, and the fallback
strategy answers true to `greater_than` and `greater_equal` for every
pair of expressions. -/
theorem C8_symbolic_maths_get :
    (∀ avail : Bool, SymbolicMaths.get none avail
      = (if avail then SymbolicMathsStrategy.sympy else SymbolicMathsStrategy.simple,
         some (if avail then SymbolicMathsStrategy.sympy
               else SymbolicMathsStrategy.simple))) ∧
    (∀ (st : Option SymbolicMathsStrategy) (avail avail2 : Bool),
      SymbolicMaths.get (SymbolicMaths.get st avail).2 avail2
        = ((SymbolicMaths.get st avail).1, (SymbolicMaths.get st avail).2)) ∧
    (∀ e1 e2, SymbolicMathsSimple.greater_than e1 e2 = true ∧
              SymbolicMathsSimple.greater_equal e1 e2 = true) := by
  refine ⟨fun avail => by cases avail <;> rfl,
          fun st avail avail2 => ?_,
          fun e1 e2 => ⟨rfl, rfl⟩⟩
  cases st <;> cases avail <;> cases avail2 <;> rfl

/-- C2 counterexample: `GOConstLoopBoundsTrans.apply` on a
`GOInvokeSchedule` whose single `GOLoop` has no kernel (so its grid
offset is unsupported) raises a `TransformationError`, yet the tree has
been mutated: the two bound assignments are already inserted (3
children instead of 1), contradicting the claim that any
`TransformationError` from `apply` leaves the tree node-for-node
identical. -/
theorem C2_counterexample :
    (GOConstLoopBoundsTrans.apply exSupported exBounds
        (.goInvokeSchedule exGOSched)).1
      = .error (.transformationError
          "Constant bounds generation not implemented for a grid offset of .") ∧
    (GOConstLoopBoundsTrans.apply exSupported exBounds
        (.goInvokeSchedule exGOSched)).2.childCount = 3 ∧
    (GONode.goInvokeSchedule exGOSched).childCount = 1 ∧
    (GOConstLoopBoundsTrans.apply exSupported exBounds
        (.goInvokeSchedule exGOSched)).2 ≠ .goInvokeSchedule exGOSched := by
  refine ⟨rfl, rfl, rfl, fun h => ?_⟩
  exact absurd (congrArg GONode.childCount h) (by decide)

/-- C2 (amended): both transformations call `validate` before
performing any mutation, and whenever `validate` raises for a given
(node, options) pair the failed `apply` call leaves the tree exactly as
it was (it returns the very error with the node unchanged); however —
per the counterexample — `GOConstLoopBoundsTrans.apply` can still raise
a `TransformationError` of its own (unsupported grid offset) after
mutation has begun, so the no-partial-mutation guarantee holds for
validate-raised failures, not for every `TransformationError`. -/
theorem C2_transformation_atomicity :
    (∀ (sup : List String)
       (bl : String → String → String → String → String → GOExpr × GOExpr)
       (node : GONode) (e : PyError),
      GOConstLoopBoundsTrans.validate node = .error e →
      GOConstLoopBoundsTrans.apply sup bl node = (.error e, node)) ∧
    (∀ (α : Type) (add_updates : α → α) (node : ACCNode α) (e : PyError),
      ACCUpdateTrans.validate node = .error e →
      ACCUpdateTrans.apply add_updates node = (.error e, node)) := by
  constructor
  · intro sup bl node e hv
    simp [GOConstLoopBoundsTrans.apply, hv]
  · intro α add_updates node e hv
    simp [ACCUpdateTrans.apply, hv]

/-- Witness for C2 at a concrete ineligible node (a node of kind
`Loop`): both transformations fail validation and hand back the node
untouched. -/
theorem C2_transformation_atomicity_witness :
    GOConstLoopBoundsTrans.validate (GONode.other "Loop")
      = .error (.transformationError
          "Error in GOConstLoopBoundsTrans: node is not a GOInvokeSchedule") ∧
    GOConstLoopBoundsTrans.apply exSupported exBounds (GONode.other "Loop")
      = (.error (.transformationError
          "Error in GOConstLoopBoundsTrans: node is not a GOInvokeSchedule"),
         GONode.other "Loop") ∧
    ACCUpdateTrans.apply (fun s : Unit => s) (ACCNode.other "Loop")
      = (.error (.transformationError
          "Expected a Schedule but got a node of type Loop"),
         ACCNode.other "Loop") := by
  refine ⟨rfl, ?_, ?_⟩
  · exact C2_transformation_atomicity.1 exSupported exBounds
      (GONode.other "Loop") _ rfl
  · exact C2_transformation_atomicity.2 Unit (fun s => s)
      (ACCNode.other "Loop") _ rfl

/-- Adding a name to a set keeps the contents duplicate-free. -/
theorem setAdd_nodup (l : List String) (n : String) (h : l.Nodup) :
    (setAdd l n).Nodup := by
  by_cases hm : n ∈ l
  · simpa [setAdd, hm] using h
  · simp only [setAdd, hm, if_neg]
    simpa using List.Nodup.append h (List.nodup_singleton n)
      (by simpa using fun h2 => hm h2)

/-- The visitor keeps both accumulated name sets duplicate-free. -/
theorem sirVisit_nodup (n : SIRNode) : ∀ (d : Nat) (st : SIRState),
    st.field_names.Nodup → st.scalar_names.Nodup →
    (sirVisit d st n).2.field_names.Nodup ∧
    (sirVisit d st n).2.scalar_names.Nodup := by
  induction n with
  | assignment lhs rhs ihl ihr =>
    intro d st h1 h2
    have hl := ihl (d + 1) st h1 h2
    exact ihr (d + 1) (sirVisit (d + 1) st lhs).2 hl.1 hl.2
  | binaryOperation op lhs rhs ihl ihr =>
    intro d st h1 h2
    have hl := ihl (d + 1) st h1 h2
    exact ihr (d + 1) (sirVisit (d + 1) st lhs).2 hl.1 hl.2
  | reference name sym =>
    intro d st h1 h2
    exact ⟨h1, setAdd_nodup _ _ h2⟩
  | arrayReference name sym indices =>
    intro d st h1 h2
    exact ⟨setAdd_nodup _ _ h1, h2⟩
  | literal value sirType =>
    intro d st h1 h2
    exact ⟨h1, h2⟩

/-- The walk over a node list keeps both accumulated name sets
duplicate-free. -/
theorem sirVisitList_nodup (l : List SIRNode) : ∀ (d : Nat) (st : SIRState),
    st.field_names.Nodup → st.scalar_names.Nodup →
    (sirVisitList d st l).2.field_names.Nodup ∧
    (sirVisitList d st l).2.scalar_names.Nodup := by
  induction l with
  | nil => intro d st h1 h2; exact ⟨h1, h2⟩
  | cons n rest ih =>
    intro d st h1 h2
    have h := sirVisit_nodup n d st h1 h2
    exact ih d (sirVisit d st n).2 h.1 h.2

/-- A successful `exceptMapM` yields one output per input. -/
theorem exceptMapM_ok_length (f : String → Except String String) :
    ∀ (l : List String) (ys : List String),
    exceptMapM f l = .ok ys → ys.length = l.length := by
  intro l
  induction l with
  | nil =>
    intro ys h
    simp only [exceptMapM] at h
    cases h
    rfl
  | cons a as ih =>
    intro ys h
    simp only [exceptMapM] at h
    rcases hf : f a with e | b <;> rw [hf] at h
    · cases h
    · rcases hm : exceptMapM f as with e2 | bs <;> rw [hm] at h
      · cases h
      · cases h
        simpa using ih bs hm

/-- C9 counterexample: for the statement `a(i) = b(i)` the fields are
first encountered in the order `a`, `b`; iterating the unordered
`_field_names` set in the reverse order — a permutation of its
contents, hence an admissible iteration order for a Python `set` — the
declarations are emitted as `b`, `a`, which is not the
insertion-ordered (first-encounter) sequence the claim requires. -/
theorem C9_counterexample :
    (sirState [exSirStmt]).field_names = ["a", "b"] ∧
    (List.reverse (sirState [exSirStmt]).field_names).Perm
      (sirState [exSirStmt]).field_names ∧
    sirDeclNames List.reverse (sirState [exSirStmt]) = ["b", "a"] ∧
    sirDeclNames List.reverse (sirState [exSirStmt])
      ≠ (sirState [exSirStmt]).field_names
        ++ (sirState [exSirStmt]).scalar_names := by
  exact ⟨rfl, by decide, rfl, by decide⟩

/-- C9 (amended): during backend emission the distinct array and scalar
names referenced in the walked tree are accumulated as per-output-unit
state, and — for every admissible iteration order of the two unordered
name sets, i.e. every permutation of their contents — each name's
declaration is emitted exactly once, deduplicated, after the body in
which the names appear; the emission order is that set-iteration order,
which (per the counterexample) is not guaranteed to be the
first-encounter (insertion) order. -/
theorem C9_sir_declarations (enum : List String → List String)
    (henum : ∀ l : List String, (enum l).Perm l)
    (children : List SIRNode) (decls : List String)
    (hdecl : sirDeclarations enum (sirState children) = .ok decls) :
    (sirState children).field_names.Nodup ∧
    (sirState children).scalar_names.Nodup ∧
    (enum (sirState children).field_names).Nodup ∧
    (enum (sirState children).scalar_names).Nodup ∧
    decls.length = (sirState children).field_names.length
      + (sirState children).scalar_names.length ∧
    (sirDeclNames enum (sirState children)).Perm
      ((sirState children).field_names ++ (sirState children).scalar_names) ∧
    nemoinvokeschedule_node enum children
      = .ok (nemoHeader ++ sirBodyText children ++ "\n" ++ nemoMakeSirOpen
          ++ String.intercalate ", " decls ++ nemoFooter) := by
  have hnodup := sirVisitList_nodup children 0 SIRState.initial
    (by simp [SIRState.initial]) (by simp [SIRState.initial])
  have hf : (sirState children).field_names.Nodup := hnodup.1
  have hs : (sirState children).scalar_names.Nodup := hnodup.2
  refine ⟨hf, hs, ((henum _).nodup_iff).mpr hf, ((henum _).nodup_iff).mpr hs,
          ?_, List.Perm.append (henum _) (henum _), ?_⟩
  · rcases hmf : exceptMapM (fun name =>
        match (sirState children).fields.lookup name with
        | none => .error "KeyError"
        | some sym => makeFieldDecl name sym)
        (enum (sirState children).field_names) with e | fdecls
    · simp only [sirDeclarations, hmf] at hdecl
      exact Except.noConfusion hdecl
    · rcases hms : exceptMapM (fun name =>
          match (sirState children).scalars.lookup name with
          | none => .error "KeyError"
          | some sym => .ok (makeScalarDecl name sym))
          (enum (sirState children).scalar_names) with e | sdecls
      · simp only [sirDeclarations, hmf, hms] at hdecl
        exact Except.noConfusion hdecl
      · simp only [sirDeclarations, hmf, hms] at hdecl
        cases hdecl
        rw [List.length_append, exceptMapM_ok_length _ _ _ hmf,
            exceptMapM_ok_length _ _ _ hms,
            (henum _).length_eq, (henum _).length_eq]
  · have hdecl2 : sirDeclarations enum
        (sirVisitList 0 SIRState.initial children).2 = .ok decls := hdecl
    simp only [nemoinvokeschedule_node, hdecl2]
    rfl

/-- Witness for C9 at the concrete statement `a(i) = b(i)` with the
identity set-iteration order: two declarations (one per distinct field
name), emitted after the body. -/
theorem C9_sir_declarations_witness :
    sirDeclarations id (sirState [exSirStmt])
      = .ok ["make_field(\"a\", make_field_dimensions_cartesian([1, 1, 1]))",
             "make_field(\"b\", make_field_dimensions_cartesian([1, 1, 1]))"] ∧
    (sirState [exSirStmt]).field_names.Nodup ∧
    nemoinvokeschedule_node id [exSirStmt]
      = .ok (nemoHeader ++ sirBodyText [exSirStmt] ++ "\n" ++ nemoMakeSirOpen
          ++ String.intercalate ", "
              ["make_field(\"a\", make_field_dimensions_cartesian([1, 1, 1]))",
               "make_field(\"b\", make_field_dimensions_cartesian([1, 1, 1]))"]
          ++ nemoFooter) := by
  have h := C9_sir_declarations id (fun l => List.Perm.refl l) [exSirStmt]
    ["make_field(\"a\", make_field_dimensions_cartesian([1, 1, 1]))",
     "make_field(\"b\", make_field_dimensions_cartesian([1, 1, 1]))"] rfl
  exact ⟨rfl, h.1, h.2.2.2.2.2.2⟩

end PSyclone
